import Mathlib

/-!
Shallow embedding of the `robor-rs` repository (src/src/mouse.rs and
src/src/event_emitter.rs).

Modelling conventions:
* Rust `i32` values are embedded as `Int`; where the source performs `i32`
  arithmetic that can overflow (`+` in `offset` / `move_relative`), the
  wrap-around is made explicit through `wrap32` (release-mode two's-complement
  semantics).
* Rust `u32` values produced by casts (`as u32`) are embedded as `Nat` reduced
  modulo `2^32` via `u32cast`; `toI32` reads such a value back as a signed
  32-bit integer.
* The Win32 collaborator (`GetSystemMetrics`, `SetCursorPos`, `mouse_event`,
  thread sleeps, listener closures) is externalised: screen metrics become an
  explicit `ScreenBounds` argument, and every side-effecting call is recorded
  in an ordered `List Effect` trace returned alongside the result and the
  post-state.
* Fallible Rust functions returning `Result` become `Except MouseError`.
-/

/-- Screen bounds as returned by `GetSystemMetrics(SM_CXSCREEN / SM_CYSCREEN)`,
externalised as an explicit parameter of every operation that queries them. -/
structure ScreenBounds where
  width : Int
  height : Int
deriving DecidableEq, Repr

/-- The error enum `MouseError` from src/src/mouse.rs. The `io::Error` payload
of `IoError` carries no structure relevant to any modelled operation and is
dropped. -/
inductive MouseError where
  | InvalidInput : MouseError
  | ConversionError : String → MouseError
  | IoError : MouseError
  | OutOfBounds : MouseError
deriving DecidableEq, Repr

/-- The struct `MousePosition { x: i32, y: i32 }`. -/
structure MousePosition where
  x : Int
  y : Int
deriving DecidableEq, Repr

/-- Two's-complement wrap-around of an integer into the `i32` range, the
release-mode semantics of Rust `i32` addition. -/
def wrap32 (n : Int) : Int :=
  (n + 2 ^ 31) % 2 ^ 32 - 2 ^ 31

/-- Reduction of an integer modulo `2^32`, the semantics of a Rust `as u32`
cast, with the result read as a natural number. -/
def u32cast (n : Int) : Nat :=
  (n % 2 ^ 32).toNat

/-- Reading a `u32` value back as a signed 32-bit integer (the reverse cast
`as i32`). -/
def toI32 (n : Nat) : Int :=
  if n < 2 ^ 31 then (n : Int) else (n : Int) - 2 ^ 32

namespace MousePosition

/-- `MousePosition::new` — verbatim construction. -/
def new (x y : Int) : MousePosition :=
  ⟨x, y⟩

/-- `MousePosition::is_out_of_bounds`, with the `GetSystemMetrics` calls
externalised into the `bounds` argument:
`self.x < 0 || self.y < 0 || self.x > screen_width || self.y > screen_height`. -/
def is_out_of_bounds (p : MousePosition) (bounds : ScreenBounds) : Bool :=
  p.x < 0 || p.y < 0 || p.x > bounds.width || p.y > bounds.height

/-- `MousePosition::to_u32` — `i32 -> u32` `try_into` fails exactly on negative
values (every non-negative `i32` fits in a `u32`); `x` is attempted first and
`?` propagates its error before `y` is examined. -/
def to_u32 (p : MousePosition) : Except MouseError (Nat × Nat) :=
  if p.x < 0 then
    .error (.ConversionError "Failed to convert x to u32")
  else if p.y < 0 then
    .error (.ConversionError "Failed to convert y to u32")
  else
    .ok (p.x.toNat, p.y.toNat)

/-- `MousePosition::offset` — `i32` addition of the distances, with
release-mode wrap-around made explicit. -/
def offset (p : MousePosition) (distance_x distance_y : Int) : MousePosition :=
  MousePosition.new (wrap32 (p.x + distance_x)) (wrap32 (p.y + distance_y))

end MousePosition

/-- Claim C3: `is_out_of_bounds` returns true iff
`x < 0 || y < 0 || x > width || y > height`; a coordinate exactly equal to
`width`/`height` is in-bounds, `width+1`/`height+1` is out-of-bounds, and any
negative coordinate is out-of-bounds. -/
theorem c3_is_out_of_bounds_characterisation (b : ScreenBounds) (x y : Int) :
    (MousePosition.is_out_of_bounds ⟨x, y⟩ b = true ↔
      (x < 0 ∨ y < 0 ∨ x > b.width ∨ y > b.height))
    ∧ (0 ≤ b.width → 0 ≤ b.height →
        MousePosition.is_out_of_bounds ⟨b.width, b.height⟩ b = false)
    ∧ MousePosition.is_out_of_bounds ⟨b.width + 1, y⟩ b = true
    ∧ MousePosition.is_out_of_bounds ⟨x, b.height + 1⟩ b = true
    ∧ (x < 0 → MousePosition.is_out_of_bounds ⟨x, y⟩ b = true) := by
  refine ⟨?_, ?_, ?_, ?_, ?_⟩
  · simp [MousePosition.is_out_of_bounds, or_assoc]
  · intro hw hh
    simp [MousePosition.is_out_of_bounds]
    omega
  · simp [MousePosition.is_out_of_bounds]
  · simp [MousePosition.is_out_of_bounds]
  · intro hx
    simp [MousePosition.is_out_of_bounds]
    omega

/-- Witness for C3 at concrete bounds (1920, 1080) and coordinates. -/
theorem c3_is_out_of_bounds_characterisation_witness :
    MousePosition.is_out_of_bounds ⟨1920, 1080⟩ ⟨1920, 1080⟩ = false
    ∧ MousePosition.is_out_of_bounds ⟨-3, 5⟩ ⟨1920, 1080⟩ = true := by
  refine ⟨?_, ?_⟩
  · exact (c3_is_out_of_bounds_characterisation ⟨1920, 1080⟩ 0 0).2.1
      (by decide) (by decide)
  · exact (c3_is_out_of_bounds_characterisation ⟨1920, 1080⟩ (-3) 5).2.2.2.2
      (by decide)

/-- Claim C7: `to_u32` succeeds with the unsigned pair exactly when both
components are non-negative; a negative `x` yields the x-specific
`ConversionError` regardless of `y` (short-circuit, x attempted first), and a
negative `y` with non-negative `x` yields the y-specific error. -/
theorem c7_to_u32_short_circuit (x y : Int) :
    (0 ≤ x → 0 ≤ y →
      MousePosition.to_u32 ⟨x, y⟩ = .ok (x.toNat, y.toNat))
    ∧ (x < 0 →
      MousePosition.to_u32 ⟨x, y⟩ =
        .error (.ConversionError "Failed to convert x to u32"))
    ∧ (0 ≤ x → y < 0 →
      MousePosition.to_u32 ⟨x, y⟩ =
        .error (.ConversionError "Failed to convert y to u32")) := by
  refine ⟨?_, ?_, ?_⟩
  · intro hx hy
    simp [MousePosition.to_u32, not_lt.mpr hx, not_lt.mpr hy]
  · intro hx
    simp [MousePosition.to_u32, hx]
  · intro hx hy
    simp [MousePosition.to_u32, not_lt.mpr hx, hy]

/-- Witness for C7: `(10, 20)` converts to `(10, 20)`; `(-10, 20)` reports the
x-specific error even though `y` is fine; `(10, -20)` reports the y-specific
error. -/
theorem c7_to_u32_short_circuit_witness :
    MousePosition.to_u32 ⟨10, 20⟩ = .ok (10, 20)
    ∧ MousePosition.to_u32 ⟨-10, 20⟩ =
        .error (.ConversionError "Failed to convert x to u32")
    ∧ MousePosition.to_u32 ⟨10, -20⟩ =
        .error (.ConversionError "Failed to convert y to u32") := by
  refine ⟨?_, ?_, ?_⟩
  · exact (c7_to_u32_short_circuit 10 20).1 (by decide) (by decide)
  · exact (c7_to_u32_short_circuit (-10) 20).2.1 (by decide)
  · exact (c7_to_u32_short_circuit 10 (-20)).2.2 (by decide) (by decide)

/-- Listener closures (`Box<dyn Fn()>`) are opaque to the model; a listener is
identified by a natural-number handle, and "invoking" it means recording that
handle in the emission trace. -/
abbrev Listener : Type := Nat

/-- The struct `EventEmitter { listeners: HashMap<String, Vec<Box<dyn Fn()>>> }`
from src/src/event_emitter.rs. The `HashMap` is a finite map and is modelled
as an association list keyed by the event name; each value keeps its `Vec`'s
insertion order. -/
structure EventEmitter where
  listeners : List (String × List Listener)
deriving DecidableEq, Repr

namespace EventEmitter

/-- `EventEmitter::new` — an empty map. -/
def new : EventEmitter :=
  ⟨[]⟩

/-- `HashMap::get` on the modelled map. -/
def getEntry : List (String × List Listener) → String → Option (List Listener)
  | [], _ => none
  | (k, v) :: rest, name => if k = name then some v else getEntry rest name

/-- The `entry(name).or_insert(Vec::new()).push(listener)` update: append to
the existing vector for `name`, or create a fresh one-element vector. -/
def pushEntry (l : Listener) : List (String × List Listener) → String →
    List (String × List Listener)
  | [], name => [(name, [l])]
  | (k, v) :: rest, name =>
    if k = name then (k, v ++ [l]) :: rest else (k, v) :: pushEntry l rest name

/-- `EventEmitter::on` (renamed: `on` is reserved in Lean) — appends
`listener` under `event_name`. -/
def onEvent (e : EventEmitter) (event_name : String) (listener : Listener) :
    EventEmitter :=
  ⟨pushEntry listener e.listeners event_name⟩

/-- `EventEmitter::emit` — the ordered list of listener handles invoked: all
listeners under `event_name` in insertion order, or none when the name is
absent from the map. -/
def emit (e : EventEmitter) (event_name : String) : List Listener :=
  match getEntry e.listeners event_name with
  | none => []
  | some ls => ls

/-- Replaying a sequence of `on` registrations from a fresh emitter. -/
def replay (regs : List (String × Listener)) : EventEmitter :=
  regs.foldl (fun e p => e.onEvent p.1 p.2) EventEmitter.new

theorem emit_onEvent (e : EventEmitter) (n name : String) (l : Listener) :
    (e.onEvent n l).emit name =
      e.emit name ++ (if n = name then [l] else []) := by
  rcases e with ⟨ls⟩
  simp only [onEvent, emit]
  induction ls with
  | nil =>
    by_cases h : n = name <;> simp [pushEntry, getEntry, h]
  | cons hd tl ih =>
    rcases hd with ⟨k, v⟩
    by_cases hk : k = n
    · subst hk
      by_cases h : k = name <;> simp [pushEntry, getEntry, h]
    · by_cases h : k = name
      · subst h
        have hn : ¬ n = k := fun hc => hk hc.symm
        simp [pushEntry, getEntry, hk, if_neg hn]
      · simp only [pushEntry, if_neg hk, getEntry, if_neg h]
        exact ih

theorem emit_replay (regs : List (String × Listener)) (name : String) :
    (replay regs).emit name =
      (regs.filter (fun p => p.1 = name)).map (fun p => p.2) := by
  suffices h : ∀ e : EventEmitter, (regs.foldl (fun e p => e.onEvent p.1 p.2) e).emit name =
      e.emit name ++ (regs.filter (fun p => p.1 = name)).map (fun p => p.2) by
    simpa [replay, emit, new, getEntry] using h EventEmitter.new
  induction regs with
  | nil => simp
  | cons hd tl ih =>
    intro e
    rcases hd with ⟨n, l⟩
    by_cases h : n = name
    · subst h
      simp [List.foldl_cons, ih, emit_onEvent, List.filter_cons]
    · simp [List.foldl_cons, ih, emit_onEvent, h, List.filter_cons]

/-- Claim C4: after any sequence of registrations, `emit(name)` invokes exactly
the listeners registered under `name`, in registration order (so each
registration is invoked exactly once per emit); listeners registered under
other names are not invoked; zero registered listeners give an empty (no-op)
emission; and a second emit repeats the same invocations, doubling every
listener's cumulative invocation count. -/
theorem c4_emit_invokes_registered_in_order
    (regs : List (String × Listener)) (name : String) :
    (replay regs).emit name =
      (regs.filter (fun p => p.1 = name)).map (fun p => p.2)
    ∧ ((regs.filter (fun p => p.1 = name)) = [] → (replay regs).emit name = [])
    ∧ ∀ l : Listener,
        ((replay regs).emit name ++ (replay regs).emit name).count l =
          2 * ((replay regs).emit name).count l := by
  refine ⟨emit_replay regs name, ?_, ?_⟩
  · intro h
    rw [emit_replay regs name, h]
    rfl
  · intro l
    rw [List.count_append]
    omega

/-- Witness for C4: two listeners under "event" and one under "other"; emitting
"event" invokes exactly the two, in order. -/
theorem c4_emit_invokes_registered_in_order_witness :
    (EventEmitter.replay [("event", 1), ("other", 3), ("event", 2)]).emit
      "event" = [1, 2] := by
  have h := (c4_emit_invokes_registered_in_order
    [("event", 1), ("other", 3), ("event", 2)] "event").2.1
  have h1 := (c4_emit_invokes_registered_in_order
    [("event", 1), ("other", 3), ("event", 2)] "event").1
  rw [h1]
  rfl

end EventEmitter

/-- The mouse-event flags passed to the Win32 `mouse_event` call. -/
inductive MouseFlag where
  | leftDown | leftUp | rightDown | rightUp | wheel | hwheel
deriving DecidableEq, Repr

/-- One observable side effect of a mouse operation, in program order:
a `SetCursorPos` call, a `mouse_event` injection (flag, x, y, dwData as u32),
the invocation of a registered listener during an emission, or a thread sleep. -/
inductive Effect where
  | setCursor (x y : Nat) : Effect
  | mouseEvent (flag : MouseFlag) (x y : Nat) (data : Nat) : Effect
  | invoke (l : Listener) : Effect
  | sleep : Effect
deriving DecidableEq, Repr

/-- The struct `Mouse { position: MousePosition, event_emitter: EventEmitter }`.
`Mouse::new` reads the live cursor from the OS, so the initial position is an
arbitrary `MousePosition`, not a fixed default. -/
structure Mouse where
  position : MousePosition
  event_emitter : EventEmitter
deriving DecidableEq, Repr

instance : DecidableEq (Except MouseError Unit) := fun a b =>
  match a, b with
  | .ok (), .ok () => isTrue rfl
  | .ok (), .error _ => isFalse fun h => Except.noConfusion h
  | .error _, .ok () => isFalse fun h => Except.noConfusion h
  | .error e, .error f =>
    match decEq e f with
    | isTrue h => isTrue (by rw [h])
    | isFalse h => isFalse fun hh => h (by injection hh)

/-- Outcome of one `&mut self` operation: the returned `Result`, the post-state
of the mouse (unchanged on every early-return path, exactly as a Rust early
`return Err(..)` leaves `self` untouched), and the ordered trace of external
side effects performed. -/
structure StepResult where
  res : Except MouseError Unit
  state : Mouse
  effects : List Effect
deriving DecidableEq, Repr

/-- Helper: `to_u32` on a componentwise non-negative position succeeds with the
two magnitudes. -/
theorem MousePosition.to_u32_eq_ok (p : MousePosition) (hx : 0 ≤ p.x)
    (hy : 0 ≤ p.y) : p.to_u32 = .ok (p.x.toNat, p.y.toNat) := by
  simp [MousePosition.to_u32, not_lt.mpr hx, not_lt.mpr hy]

/-- Helper: an in-bounds position has non-negative components (the bounds check
subsumes the sign check). -/
theorem MousePosition.nonneg_of_in_bounds {p : MousePosition}
    {b : ScreenBounds} (h : p.is_out_of_bounds b = false) :
    0 ≤ p.x ∧ 0 ≤ p.y := by
  simp [MousePosition.is_out_of_bounds] at h
  exact ⟨h.1.1.1, h.1.1.2⟩

namespace Mouse

/-- `Mouse::move_to`:
input-range check, then bounds check, then `to_u32` conversion (propagated by
`?`), then the `SetCursorPos` side effect, then the `self.position` update. -/
def move_to (m : Mouse) (b : ScreenBounds) (x y : Int) : StepResult :=
  if x < 0 || y < 0 then
    ⟨.error .InvalidInput, m, []⟩
  else
    let new_position := MousePosition.new x y
    if new_position.is_out_of_bounds b then
      ⟨.error .OutOfBounds, m, []⟩
    else
      match new_position.to_u32 with
      | .error e => ⟨.error e, m, []⟩
      | .ok (x_u32, y_u32) =>
        ⟨.ok (), { m with position := new_position }, [.setCursor x_u32 y_u32]⟩

/-- `Mouse::move_relative` — `i32` addition of the distances to the current
position, then delegation to `move_to`. -/
def move_relative (m : Mouse) (b : ScreenBounds) (distance_x distance_y : Int) :
    StepResult :=
  move_to m b (wrap32 (m.position.x + distance_x))
    (wrap32 (m.position.y + distance_y))

/-- `Mouse::drag_and_drop` — offset target from the current position, a single
bounds check over both endpoints, conversion of both (current first), then a
left-down at the current point, a left-up at the target, and the position
update. -/
def drag_and_drop (m : Mouse) (b : ScreenBounds) (distance_x distance_y : Int) :
    StepResult :=
  let current_position := m.position
  let new_position := current_position.offset distance_x distance_y
  if current_position.is_out_of_bounds b || new_position.is_out_of_bounds b then
    ⟨.error .OutOfBounds, m, []⟩
  else
    match current_position.to_u32 with
    | .error e => ⟨.error e, m, []⟩
    | .ok (current_x, current_y) =>
      match new_position.to_u32 with
      | .error e => ⟨.error e, m, []⟩
      | .ok (new_x, new_y) =>
        ⟨.ok (), { m with position := new_position },
          [.mouseEvent .leftDown current_x current_y 0,
           .mouseEvent .leftUp new_x new_y 0]⟩

/-- `Mouse::click` — validates the current position, injects left-down then
left-up there, then emits "Click" through the registry (each invoked listener
recorded in order). -/
def click (m : Mouse) (b : ScreenBounds) : StepResult :=
  if m.position.is_out_of_bounds b then
    ⟨.error .OutOfBounds, m, []⟩
  else
    match m.position.to_u32 with
    | .error e => ⟨.error e, m, []⟩
    | .ok (x_u32, y_u32) =>
      ⟨.ok (), m,
        [.mouseEvent .leftDown x_u32 y_u32 0, .mouseEvent .leftUp x_u32 y_u32 0]
          ++ (m.event_emitter.emit "Click").map Effect.invoke⟩

/-- `Mouse::right_click` — same validation and injection shape as `click` with
the right-button flags, and no emission. -/
def right_click (m : Mouse) (b : ScreenBounds) : StepResult :=
  if m.position.is_out_of_bounds b then
    ⟨.error .OutOfBounds, m, []⟩
  else
    match m.position.to_u32 with
    | .error e => ⟨.error e, m, []⟩
    | .ok (x_u32, y_u32) =>
      ⟨.ok (), m,
        [.mouseEvent .rightDown x_u32 y_u32 0,
         .mouseEvent .rightUp x_u32 y_u32 0]⟩

theorem move_to_invalid (m : Mouse) (b : ScreenBounds) {x y : Int}
    (h : x < 0 ∨ y < 0) :
    move_to m b x y = ⟨.error .InvalidInput, m, []⟩ := by
  rcases h with h | h <;> simp [move_to, h]

theorem move_to_oob (m : Mouse) (b : ScreenBounds) {x y : Int} (hx : 0 ≤ x)
    (hy : 0 ≤ y) (h : MousePosition.is_out_of_bounds ⟨x, y⟩ b = true) :
    move_to m b x y = ⟨.error .OutOfBounds, m, []⟩ := by
  simp [move_to, MousePosition.new, not_lt.mpr hx, not_lt.mpr hy, h]

theorem move_to_ok (m : Mouse) (b : ScreenBounds) {x y : Int}
    (h : MousePosition.is_out_of_bounds ⟨x, y⟩ b = false) :
    move_to m b x y =
      ⟨.ok (), { m with position := ⟨x, y⟩ },
        [.setCursor x.toNat y.toNat]⟩ := by
  obtain ⟨hx, hy⟩ := MousePosition.nonneg_of_in_bounds h
  simp [move_to, MousePosition.new, not_lt.mpr hx, not_lt.mpr hy, h,
    MousePosition.to_u32_eq_ok ⟨x, y⟩ hx hy]

theorem drag_and_drop_oob (m : Mouse) (b : ScreenBounds) {dx dy : Int}
    (h : m.position.is_out_of_bounds b = true ∨
      (m.position.offset dx dy).is_out_of_bounds b = true) :
    drag_and_drop m b dx dy = ⟨.error .OutOfBounds, m, []⟩ := by
  rcases h with h | h <;> simp [drag_and_drop, h]

theorem drag_and_drop_ok (m : Mouse) (b : ScreenBounds) {dx dy : Int}
    (h1 : m.position.is_out_of_bounds b = false)
    (h2 : (m.position.offset dx dy).is_out_of_bounds b = false) :
    drag_and_drop m b dx dy =
      ⟨.ok (), { m with position := m.position.offset dx dy },
        [.mouseEvent .leftDown m.position.x.toNat m.position.y.toNat 0,
         .mouseEvent .leftUp (m.position.offset dx dy).x.toNat
           (m.position.offset dx dy).y.toNat 0]⟩ := by
  obtain ⟨hx1, hy1⟩ := MousePosition.nonneg_of_in_bounds h1
  obtain ⟨hx2, hy2⟩ := MousePosition.nonneg_of_in_bounds h2
  simp [drag_and_drop, h1, h2,
    MousePosition.to_u32_eq_ok m.position hx1 hy1,
    MousePosition.to_u32_eq_ok (m.position.offset dx dy) hx2 hy2]

theorem click_oob (m : Mouse) (b : ScreenBounds)
    (h : m.position.is_out_of_bounds b = true) :
    click m b = ⟨.error .OutOfBounds, m, []⟩ := by
  simp [click, h]

theorem click_ok (m : Mouse) (b : ScreenBounds)
    (h : m.position.is_out_of_bounds b = false) :
    click m b =
      ⟨.ok (), m,
        [.mouseEvent .leftDown m.position.x.toNat m.position.y.toNat 0,
         .mouseEvent .leftUp m.position.x.toNat m.position.y.toNat 0]
          ++ (m.event_emitter.emit "Click").map Effect.invoke⟩ := by
  obtain ⟨hx, hy⟩ := MousePosition.nonneg_of_in_bounds h
  simp [click, h, MousePosition.to_u32_eq_ok m.position hx hy]

theorem right_click_oob (m : Mouse) (b : ScreenBounds)
    (h : m.position.is_out_of_bounds b = true) :
    right_click m b = ⟨.error .OutOfBounds, m, []⟩ := by
  simp [right_click, h]

theorem right_click_ok (m : Mouse) (b : ScreenBounds)
    (h : m.position.is_out_of_bounds b = false) :
    right_click m b =
      ⟨.ok (), m,
        [.mouseEvent .rightDown m.position.x.toNat m.position.y.toNat 0,
         .mouseEvent .rightUp m.position.x.toNat m.position.y.toNat 0]⟩ := by
  obtain ⟨hx, hy⟩ := MousePosition.nonneg_of_in_bounds h
  simp [right_click, h, MousePosition.to_u32_eq_ok m.position hx hy]

end Mouse

theorem Mouse.move_to_ok_position (m : Mouse) (b : ScreenBounds) (x y : Int)
    (h : (m.move_to b x y).res = .ok ()) :
    (m.move_to b x y).state.position = MousePosition.new x y := by
  by_cases hneg : x < 0 ∨ y < 0
  · rw [Mouse.move_to_invalid m b hneg] at h
    simp at h
  · push_neg at hneg
    by_cases hob : MousePosition.is_out_of_bounds ⟨x, y⟩ b = true
    · rw [Mouse.move_to_oob m b hneg.1 hneg.2 hob] at h
      simp at h
    · rw [Bool.not_eq_true] at hob
      rw [Mouse.move_to_ok m b hob]
      rfl

theorem Mouse.move_to_err_state (m : Mouse) (b : ScreenBounds) (x y : Int)
    (h : (m.move_to b x y).res ≠ .ok ()) :
    (m.move_to b x y).state = m := by
  by_cases hneg : x < 0 ∨ y < 0
  · rw [Mouse.move_to_invalid m b hneg]
  · push_neg at hneg
    by_cases hob : MousePosition.is_out_of_bounds ⟨x, y⟩ b = true
    · rw [Mouse.move_to_oob m b hneg.1 hneg.2 hob]
    · rw [Bool.not_eq_true] at hob
      rw [Mouse.move_to_ok m b hob] at h
      simp at h

theorem Mouse.drag_and_drop_err_state (m : Mouse) (b : ScreenBounds)
    (dx dy : Int) (h : (m.drag_and_drop b dx dy).res ≠ .ok ()) :
    (m.drag_and_drop b dx dy).state = m := by
  by_cases h1 : m.position.is_out_of_bounds b = true
  · rw [Mouse.drag_and_drop_oob m b (Or.inl h1)]
  · by_cases h2 : (m.position.offset dx dy).is_out_of_bounds b = true
    · rw [Mouse.drag_and_drop_oob m b (Or.inr h2)]
    · rw [Bool.not_eq_true] at h1 h2
      rw [Mouse.drag_and_drop_ok m b h1 h2] at h
      simp at h

theorem Mouse.drag_and_drop_ok_position (m : Mouse) (b : ScreenBounds)
    (dx dy : Int) (h : (m.drag_and_drop b dx dy).res = .ok ()) :
    (m.drag_and_drop b dx dy).state.position = m.position.offset dx dy := by
  by_cases h1 : m.position.is_out_of_bounds b = true
  · rw [Mouse.drag_and_drop_oob m b (Or.inl h1)] at h
    simp at h
  · by_cases h2 : (m.position.offset dx dy).is_out_of_bounds b = true
    · rw [Mouse.drag_and_drop_oob m b (Or.inr h2)] at h
      simp at h
    · rw [Bool.not_eq_true] at h1 h2
      rw [Mouse.drag_and_drop_ok m b h1 h2]

/-- Claim C1: for `move_to`, `move_relative` and `drag_and_drop`, a successful
call leaves `position` equal to that call's validated target (never a
partially-applied or clamped value), and a failed call (InvalidInput,
OutOfBounds or ConversionError) leaves the whole mouse state exactly as it
was before the call. -/
theorem c1_move_ops_state_invariant (m : Mouse) (b : ScreenBounds)
    (x y dx dy : Int) :
    ((m.move_to b x y).res = .ok () →
      (m.move_to b x y).state.position = MousePosition.new x y)
    ∧ ((m.move_to b x y).res ≠ .ok () → (m.move_to b x y).state = m)
    ∧ ((m.move_relative b dx dy).res = .ok () →
      (m.move_relative b dx dy).state.position =
        MousePosition.new (wrap32 (m.position.x + dx))
          (wrap32 (m.position.y + dy)))
    ∧ ((m.move_relative b dx dy).res ≠ .ok () →
      (m.move_relative b dx dy).state = m)
    ∧ ((m.drag_and_drop b dx dy).res = .ok () →
      (m.drag_and_drop b dx dy).state.position = m.position.offset dx dy)
    ∧ ((m.drag_and_drop b dx dy).res ≠ .ok () →
      (m.drag_and_drop b dx dy).state = m) :=
  ⟨Mouse.move_to_ok_position m b x y,
   Mouse.move_to_err_state m b x y,
   Mouse.move_to_ok_position m b (wrap32 (m.position.x + dx))
     (wrap32 (m.position.y + dy)),
   Mouse.move_to_err_state m b (wrap32 (m.position.x + dx))
     (wrap32 (m.position.y + dy)),
   Mouse.drag_and_drop_ok_position m b dx dy,
   Mouse.drag_and_drop_err_state m b dx dy⟩

/-- Witness for C1 at a concrete state: a successful `move_to` lands on the
target, a failed (negative) `move_to` leaves the state untouched, and a
successful `drag_and_drop` lands on the offset target. -/
theorem c1_move_ops_state_invariant_witness :
    (Mouse.move_to ⟨⟨100, 100⟩, EventEmitter.new⟩ ⟨1920, 1080⟩ 5 6).state.position
        = MousePosition.new 5 6
    ∧ (Mouse.move_to ⟨⟨100, 100⟩, EventEmitter.new⟩ ⟨1920, 1080⟩ (-1) 6).state
        = ⟨⟨100, 100⟩, EventEmitter.new⟩
    ∧ (Mouse.drag_and_drop ⟨⟨100, 100⟩, EventEmitter.new⟩ ⟨1920, 1080⟩ 50 50).state.position
        = (⟨100, 100⟩ : MousePosition).offset 50 50 :=
  ⟨(c1_move_ops_state_invariant ⟨⟨100, 100⟩, EventEmitter.new⟩ ⟨1920, 1080⟩
      5 6 0 0).1 (by decide),
   (c1_move_ops_state_invariant ⟨⟨100, 100⟩, EventEmitter.new⟩ ⟨1920, 1080⟩
      (-1) 6 0 0).2.1 (by decide),
   (c1_move_ops_state_invariant ⟨⟨100, 100⟩, EventEmitter.new⟩ ⟨1920, 1080⟩
      0 0 50 50).2.2.2.2.1 (by decide)⟩

/-- Claim C2: `move_to` short-circuits in the order input-range check (negative
coordinate gives `InvalidInput`, never `OutOfBounds`, with the state and the
effect trace untouched), then bounds check (`OutOfBounds`, untouched), then
conversion, then the single side-effecting `SetCursorPos` call and the
position update. -/
theorem c2_move_to_check_order (m : Mouse) (b : ScreenBounds) (x y : Int) :
    ((x < 0 ∨ y < 0) →
      m.move_to b x y = ⟨.error .InvalidInput, m, []⟩)
    ∧ (0 ≤ x → 0 ≤ y → MousePosition.is_out_of_bounds ⟨x, y⟩ b = true →
      m.move_to b x y = ⟨.error .OutOfBounds, m, []⟩)
    ∧ (MousePosition.is_out_of_bounds ⟨x, y⟩ b = false →
      m.move_to b x y =
        ⟨.ok (), { m with position := ⟨x, y⟩ },
          [.setCursor x.toNat y.toNat]⟩) :=
  ⟨fun h => Mouse.move_to_invalid m b h,
   fun hx hy h => Mouse.move_to_oob m b hx hy h,
   fun h => Mouse.move_to_ok m b h⟩

/-- Witness for C2: a negative x with an in-bounds magnitude fails with
`InvalidInput` (not `OutOfBounds`) leaving the state unchanged; an in-range
but oversized target fails with `OutOfBounds`; a valid target sets the cursor. -/
theorem c2_move_to_check_order_witness :
    Mouse.move_to ⟨⟨100, 100⟩, EventEmitter.new⟩ ⟨1920, 1080⟩ (-7) 5
        = ⟨.error .InvalidInput, ⟨⟨100, 100⟩, EventEmitter.new⟩, []⟩
    ∧ Mouse.move_to ⟨⟨100, 100⟩, EventEmitter.new⟩ ⟨1920, 1080⟩ 2000 5
        = ⟨.error .OutOfBounds, ⟨⟨100, 100⟩, EventEmitter.new⟩, []⟩
    ∧ Mouse.move_to ⟨⟨100, 100⟩, EventEmitter.new⟩ ⟨1920, 1080⟩ 30 40
        = ⟨.ok (), ⟨⟨30, 40⟩, EventEmitter.new⟩, [.setCursor 30 40]⟩ :=
  ⟨(c2_move_to_check_order ⟨⟨100, 100⟩, EventEmitter.new⟩ ⟨1920, 1080⟩
      (-7) 5).1 (Or.inl (by decide)),
   (c2_move_to_check_order ⟨⟨100, 100⟩, EventEmitter.new⟩ ⟨1920, 1080⟩
      2000 5).2.1 (by decide) (by decide) (by decide),
   (c2_move_to_check_order ⟨⟨100, 100⟩, EventEmitter.new⟩ ⟨1920, 1080⟩
      30 40).2.2 (by decide)⟩

/-- Claim C10: `move_to` never returns a `ConversionError` (nor an `IoError`):
its result is always `Ok`, `InvalidInput` or `OutOfBounds`, because once the
sign and bounds checks pass the `to_u32` conversion cannot fail. -/
theorem c10_move_to_no_conversion_error (m : Mouse) (b : ScreenBounds)
    (x y : Int) :
    (m.move_to b x y).res = .ok ()
    ∨ (m.move_to b x y).res = .error .InvalidInput
    ∨ (m.move_to b x y).res = .error .OutOfBounds := by
  by_cases hneg : x < 0 ∨ y < 0
  · rw [Mouse.move_to_invalid m b hneg]
    right
    left
    rfl
  · push_neg at hneg
    by_cases hob : MousePosition.is_out_of_bounds ⟨x, y⟩ b = true
    · rw [Mouse.move_to_oob m b hneg.1 hneg.2 hob]
      right
      right
      rfl
    · rw [Bool.not_eq_true] at hob
      rw [Mouse.move_to_ok m b hob]
      left
      rfl

/-- Claim C6: `drag_and_drop(dx, dy)` targets the offset of the current
position; if either the current position or the offset target is out of
bounds it fails with `OutOfBounds` leaving the state (and the effect trace)
untouched; if both are in bounds it succeeds, injects left-down at the current
point and left-up at the target, and updates the position to the target. -/
theorem c6_drag_and_drop_offset_target (m : Mouse) (b : ScreenBounds)
    (dx dy : Int) :
    ((m.position.is_out_of_bounds b = true ∨
        (m.position.offset dx dy).is_out_of_bounds b = true) →
      m.drag_and_drop b dx dy = ⟨.error .OutOfBounds, m, []⟩)
    ∧ (m.position.is_out_of_bounds b = false →
        (m.position.offset dx dy).is_out_of_bounds b = false →
      m.drag_and_drop b dx dy =
        ⟨.ok (), { m with position := m.position.offset dx dy },
          [.mouseEvent .leftDown m.position.x.toNat m.position.y.toNat 0,
           .mouseEvent .leftUp (m.position.offset dx dy).x.toNat
             (m.position.offset dx dy).y.toNat 0]⟩) :=
  ⟨fun h => Mouse.drag_and_drop_oob m b h,
   fun h1 h2 => Mouse.drag_and_drop_ok m b h1 h2⟩

/-- Witness for C6: from (100,100), `drag_and_drop(50, 50)` lands on (150,150);
with the target out of bounds the call fails with `OutOfBounds` and the
position stays (100,100). -/
theorem c6_drag_and_drop_offset_target_witness :
    Mouse.drag_and_drop ⟨⟨100, 100⟩, EventEmitter.new⟩ ⟨1920, 1080⟩ 50 50
      = ⟨.ok (), ⟨⟨150, 150⟩, EventEmitter.new⟩,
          [.mouseEvent .leftDown 100 100 0, .mouseEvent .leftUp 150 150 0]⟩
    ∧ Mouse.drag_and_drop ⟨⟨100, 100⟩, EventEmitter.new⟩ ⟨1920, 1080⟩ 5000 0
      = ⟨.error .OutOfBounds, ⟨⟨100, 100⟩, EventEmitter.new⟩, []⟩ := by
  constructor
  · have h := (c6_drag_and_drop_offset_target ⟨⟨100, 100⟩, EventEmitter.new⟩
      ⟨1920, 1080⟩ 50 50).2 (by decide) (by decide)
    rw [h]
    decide
  · exact (c6_drag_and_drop_offset_target ⟨⟨100, 100⟩, EventEmitter.new⟩
      ⟨1920, 1080⟩ 5000 0).1 (Or.inr (by decide))

/-- Claim C8: `click` validates the current position (failing `OutOfBounds`
with no injected input and no emission), and on success injects left-down then
left-up and only then emits "Click" (every invoked listener appears after the
two injections in the trace); `right_click` has the same shape with the
right-button flags but never invokes any listener; a `move_to` never invokes
a listener either. -/
theorem c8_click_emission_shape (m : Mouse) (b : ScreenBounds) :
    (m.position.is_out_of_bounds b = true →
      m.click b = ⟨.error .OutOfBounds, m, []⟩
        ∧ m.right_click b = ⟨.error .OutOfBounds, m, []⟩)
    ∧ (m.position.is_out_of_bounds b = false →
      m.click b =
        ⟨.ok (), m,
          [.mouseEvent .leftDown m.position.x.toNat m.position.y.toNat 0,
           .mouseEvent .leftUp m.position.x.toNat m.position.y.toNat 0]
            ++ (m.event_emitter.emit "Click").map Effect.invoke⟩)
    ∧ (m.position.is_out_of_bounds b = false →
      m.right_click b =
        ⟨.ok (), m,
          [.mouseEvent .rightDown m.position.x.toNat m.position.y.toNat 0,
           .mouseEvent .rightUp m.position.x.toNat m.position.y.toNat 0]⟩)
    ∧ (∀ l : Listener, Effect.invoke l ∉ (m.right_click b).effects)
    ∧ (∀ (x y : Int) (l : Listener),
        Effect.invoke l ∉ (m.move_to b x y).effects) := by
  refine ⟨fun h => ⟨Mouse.click_oob m b h, Mouse.right_click_oob m b h⟩,
    fun h => Mouse.click_ok m b h,
    fun h => Mouse.right_click_ok m b h, ?_, ?_⟩
  · intro l
    by_cases h : m.position.is_out_of_bounds b = true
    · rw [Mouse.right_click_oob m b h]
      simp
    · rw [Bool.not_eq_true] at h
      rw [Mouse.right_click_ok m b h]
      simp
  · intro x y l
    by_cases hneg : x < 0 ∨ y < 0
    · rw [Mouse.move_to_invalid m b hneg]
      simp
    · push_neg at hneg
      by_cases hob : MousePosition.is_out_of_bounds ⟨x, y⟩ b = true
      · rw [Mouse.move_to_oob m b hneg.1 hneg.2 hob]
        simp
      · rw [Bool.not_eq_true] at hob
        rw [Mouse.move_to_ok m b hob]
        simp

/-- Witness for C8 at a concrete state with one registered "Click" listener:
the click injects the pair then invokes the listener; the right click injects
its pair and invokes nothing; an out-of-bounds state yields `OutOfBounds` with
an empty trace. -/
theorem c8_click_emission_shape_witness :
    Mouse.click ⟨⟨10, 20⟩, ⟨[("Click", [7])]⟩⟩ ⟨1920, 1080⟩
      = ⟨.ok (), ⟨⟨10, 20⟩, ⟨[("Click", [7])]⟩⟩,
          [.mouseEvent .leftDown 10 20 0, .mouseEvent .leftUp 10 20 0,
           .invoke 7]⟩
    ∧ Mouse.right_click ⟨⟨10, 20⟩, ⟨[("Click", [7])]⟩⟩ ⟨1920, 1080⟩
      = ⟨.ok (), ⟨⟨10, 20⟩, ⟨[("Click", [7])]⟩⟩,
          [.mouseEvent .rightDown 10 20 0, .mouseEvent .rightUp 10 20 0]⟩
    ∧ Mouse.click ⟨⟨-4, 20⟩, ⟨[("Click", [7])]⟩⟩ ⟨1920, 1080⟩
      = ⟨.error .OutOfBounds, ⟨⟨-4, 20⟩, ⟨[("Click", [7])]⟩⟩, []⟩ := by
  refine ⟨?_, ?_, ?_⟩
  · have h := (c8_click_emission_shape ⟨⟨10, 20⟩, ⟨[("Click", [7])]⟩⟩
      ⟨1920, 1080⟩).2.1 (by decide)
    rw [h]
    rfl
  · exact (c8_click_emission_shape ⟨⟨10, 20⟩, ⟨[("Click", [7])]⟩⟩
      ⟨1920, 1080⟩).2.2.1 (by decide)
  · exact ((c8_click_emission_shape ⟨⟨-4, 20⟩, ⟨[("Click", [7])]⟩⟩
      ⟨1920, 1080⟩).1 (by decide)).1

namespace Mouse

/-- Rust `i32::abs` in release mode: the mathematical absolute value wrapped
back into the i32 range. Everywhere except `i32::MIN` this is the ordinary
absolute value; `(-2^31).abs()` overflows and wraps back to `-2^31` itself (a
debug build would panic there). -/
def i32abs (a : Int) : Int :=
  wrap32 |a|

theorem wrap32_eq_self {n : Int} (h1 : -(2 ^ 31) ≤ n) (h2 : n < 2 ^ 31) :
    wrap32 n = n := by
  unfold wrap32
  rw [Int.emod_eq_of_lt (by omega) (by omega)]
  omega

/-- The `while remaining != 0` loop of `Mouse::scroll_with_delay`. `remaining`
carries the source\'s mutable i32 loop variable, with every i32 operation on it
(the `abs` that initialises it, the `scroll_amount * scroll_direction`
product, the `remaining -= scroll_amount` update) wrapping via `wrap32`. The
fuel argument only witnesses termination and never cuts the source short:
an iteration entered with `remaining > 0` subtracts `scroll_amount =
min(remaining, |signum(amount)|) = 1`, so `remaining` iterations suffice, and
an iteration entered with `remaining < 0` (reachable only as `remaining =
i32abs i32::MIN = i32::MIN`) has `scroll_amount = remaining` and zeroes
`remaining`, stopping the loop after that single pass. Each iteration injects
one wheel event carrying `(scroll_amount * scroll_direction) as u32` and then
sleeps for `delay`. (`step = signum(amount)` never overflows, so its `abs` is
the plain `natAbs`.) -/
def scrollLoop (x_u32 y_u32 : Nat) (amount : Int) : Nat → Int → List Effect
  | 0, _ => []
  | fuel + 1, remaining =>
    if remaining = 0 then []
    else
      let step := amount.sign
      let scroll_amount := min remaining (step.natAbs : Int)
      let scroll_direction : Int := if amount < 0 then -1 else 1
      Effect.mouseEvent .wheel x_u32 y_u32
          (u32cast (wrap32 (scroll_amount * scroll_direction)))
        :: Effect.sleep
        :: scrollLoop x_u32 y_u32 amount fuel
            (wrap32 (remaining - scroll_amount))

/-- `Mouse::scroll_with_delay` — validates the current position once, converts
it once, initialises `remaining = amount.abs()` (the wrapping i32 `abs`),
then runs the stepped wheel loop. The fuel `remaining.toNat + 1` bounds the
loop\'s iteration count (see `scrollLoop`): a positive `remaining` needs
exactly `remaining` iterations, a negative one exactly one, zero none. The
`delay` parameter only feeds `thread::sleep` and is absorbed into the `sleep`
effect. -/
def scroll_with_delay (m : Mouse) (b : ScreenBounds) (amount : Int) :
    StepResult :=
  if m.position.is_out_of_bounds b then
    ⟨.error .OutOfBounds, m, []⟩
  else
    match m.position.to_u32 with
    | .error e => ⟨.error e, m, []⟩
    | .ok (x_u32, y_u32) =>
      let remaining := i32abs amount
      ⟨.ok (), m,
        scrollLoop x_u32 y_u32 amount (remaining.toNat + 1) remaining⟩

theorem scrollLoop_zero (x_u32 y_u32 : Nat) (amount : Int)
    (remaining : Int) :
    scrollLoop x_u32 y_u32 amount 0 remaining = [] :=
  rfl

theorem scrollLoop_succ (x_u32 y_u32 : Nat) (amount : Int) (fuel : Nat)
    (remaining : Int) :
    scrollLoop x_u32 y_u32 amount (fuel + 1) remaining =
      if remaining = 0 then []
      else
        Effect.mouseEvent .wheel x_u32 y_u32
            (u32cast (wrap32 (min remaining (amount.sign.natAbs : Int) *
              (if amount < 0 then (-1 : Int) else 1))))
          :: Effect.sleep
          :: scrollLoop x_u32 y_u32 amount fuel
              (wrap32 (remaining - min remaining (amount.sign.natAbs : Int))) :=
  rfl

theorem scrollLoop_unit_steps (x_u32 y_u32 : Nat) {amount : Int}
    (h : amount ≠ 0) :
    ∀ n : Nat, n < 2 ^ 31 →
      scrollLoop x_u32 y_u32 amount (n + 1) (n : Int) =
        (List.replicate n
          [Effect.mouseEvent .wheel x_u32 y_u32
            (u32cast (if amount < 0 then -1 else 1)),
           Effect.sleep]).flatten := by
  intro n
  induction n with
  | zero =>
    intro _
    rfl
  | succ k ih =>
    intro hk
    have hsign : ((amount.sign.natAbs : Nat) : Int) = 1 := by
      rcases lt_trichotomy amount 0 with hlt | heq | hgt
      · simp [Int.sign_eq_neg_one_of_neg hlt]
      · exact absurd heq h
      · simp [Int.sign_eq_one_of_pos hgt]
    have hne : ¬ (((k + 1 : Nat) : Int) = 0) := by
      push_cast
      omega
    have hmin : min (((k + 1 : Nat) : Int)) ((amount.sign.natAbs : Nat) : Int)
        = 1 := by
      rw [hsign]
      have : (1 : Int) ≤ ((k + 1 : Nat) : Int) := by
        push_cast
        omega
      omega
    have hwrap : wrap32 (((k + 1 : Nat) : Int) - 1) = (k : Int) := by
      have heq : ((k + 1 : Nat) : Int) - 1 = (k : Int) := by
        push_cast
        omega
      rw [heq]
      exact wrap32_eq_self (by omega) (by omega)
    have hdir : wrap32 (1 * (if amount < 0 then (-1 : Int) else 1))
        = if amount < 0 then (-1 : Int) else 1 := by
      by_cases hlt : amount < 0 <;> simp [hlt] <;> decide
    have hk2 : k < 2 ^ 31 := by omega
    rw [scrollLoop_succ, if_neg hne, hmin, hdir, hwrap, ih hk2]
    simp [List.replicate_succ]

theorem scroll_with_delay_oob (m : Mouse) (b : ScreenBounds) (amount : Int)
    (h : m.position.is_out_of_bounds b = true) :
    scroll_with_delay m b amount = ⟨.error .OutOfBounds, m, []⟩ := by
  simp [scroll_with_delay, h]

theorem scroll_with_delay_ok (m : Mouse) (b : ScreenBounds) (amount : Int)
    (h : m.position.is_out_of_bounds b = false) :
    scroll_with_delay m b amount =
      ⟨.ok (), m,
        scrollLoop m.position.x.toNat m.position.y.toNat amount
          ((i32abs amount).toNat + 1) (i32abs amount)⟩ := by
  obtain ⟨hx, hy⟩ := MousePosition.nonneg_of_in_bounds h
  simp [scroll_with_delay, h, MousePosition.to_u32_eq_ok m.position hx hy]

theorem i32abs_eq_natAbs {amount : Int} (h1 : -(2 ^ 31) < amount)
    (h2 : amount < 2 ^ 31) : i32abs amount = (amount.natAbs : Int) := by
  unfold i32abs
  rw [Int.abs_eq_natAbs]
  exact wrap32_eq_self (by omega) (by omega)

end Mouse

/-- Counterexample for C9 as stated: at `amount = i32::MIN = -2^31` (an i32
value, so inside the claim\'s "for every amount"), the release-mode wrap of
`amount.abs()` leaves `remaining` negative, so the loop injects exactly one
wheel event carrying `0x80000000 = 2147483648` — which reads back as the i32
`-2^31`, not a unit-magnitude delta — rather than `|amount| = 2^31` unit
events (a debug build panics in `abs` instead). -/
theorem c9_scroll_min_counterexample :
    (Mouse.scroll_with_delay ⟨⟨10, 20⟩, EventEmitter.new⟩ ⟨1920, 1080⟩
        (-(2 ^ 31))).effects
      = [.mouseEvent .wheel 10 20 2147483648, .sleep]
    ∧ ((-(2 ^ 31) : Int)).natAbs = 2147483648
    ∧ toI32 2147483648 = -(2 ^ 31) := by
  refine ⟨?_, by decide, by decide⟩
  decide

/-- Claim C9 (amended): `scroll_with_delay(amount, delay)` validates the
current position once, failing `OutOfBounds` before any injection; for every
i32 `amount` other than `i32::MIN` it injects exactly `|amount|` wheel events
— zero when `amount = 0` — each carrying `(1 * sign) as u32` as its data, a
unit-magnitude delta that reads back (as an i32) as exactly `sign(amount)`,
with a sleep after each step; at `amount = i32::MIN` the release-mode overflow
of `amount.abs()` makes the loop run exactly once, injecting a single wheel
event whose data `0x80000000` reads back as `i32::MIN` (not a unit delta),
followed by one sleep. -/
theorem c9_scroll_with_delay_unit_steps (m : Mouse) (b : ScreenBounds)
    (amount : Int) :
    (m.position.is_out_of_bounds b = true →
      m.scroll_with_delay b amount = ⟨.error .OutOfBounds, m, []⟩)
    ∧ (m.position.is_out_of_bounds b = false →
        -(2 ^ 31) < amount → amount < 2 ^ 31 →
      m.scroll_with_delay b amount =
        ⟨.ok (), m,
          (List.replicate amount.natAbs
            [Effect.mouseEvent .wheel m.position.x.toNat m.position.y.toNat
              (u32cast (if amount < 0 then -1 else 1)),
             Effect.sleep]).flatten⟩)
    ∧ (amount ≠ 0 →
        toI32 (u32cast (if amount < 0 then -1 else 1)) = amount.sign)
    ∧ (m.position.is_out_of_bounds b = false → amount = -(2 ^ 31) →
      m.scroll_with_delay b amount =
        ⟨.ok (), m,
          [.mouseEvent .wheel m.position.x.toNat m.position.y.toNat
            2147483648,
           .sleep]⟩) := by
  refine ⟨fun h => Mouse.scroll_with_delay_oob m b amount h,
    fun h h1 h2 => ?_, ?_, fun h heq => ?_⟩
  · rw [Mouse.scroll_with_delay_ok m b amount h,
      Mouse.i32abs_eq_natAbs h1 h2]
    rcases eq_or_ne amount 0 with h0 | h0
    · subst h0
      rfl
    · have hcast : ((amount.natAbs : Int)).toNat = amount.natAbs := by
        omega
      rw [hcast, Mouse.scrollLoop_unit_steps _ _ h0 amount.natAbs (by omega)]
  · intro h0
    rcases lt_trichotomy amount 0 with hlt | heq | hgt
    · rw [if_pos hlt, Int.sign_eq_neg_one_of_neg hlt]
      decide
    · exact absurd heq h0
    · rw [if_neg (by omega), Int.sign_eq_one_of_pos hgt]
      decide
  · subst heq
    rw [Mouse.scroll_with_delay_ok m b _ h]
    have habs : Mouse.i32abs (-(2 ^ 31)) = -(2 ^ 31) := by decide
    have htn : ((-(2 ^ 31) : Int)).toNat = 0 := by decide
    rw [habs, htn]
    have hne : ¬ ((-(2 ^ 31) : Int) = 0) := by decide
    have hmin : min (-(2 ^ 31) : Int)
        (((Int.sign (-(2 ^ 31))).natAbs : Nat) : Int) = -(2 ^ 31) := by decide
    have hdata : u32cast (wrap32 ((-(2 ^ 31) : Int) *
        (if (-(2 ^ 31) : Int) < 0 then (-1 : Int) else 1))) = 2147483648 := by
      decide
    have hnext : wrap32 ((-(2 ^ 31) : Int) - -(2 ^ 31)) = 0 := by decide
    rw [Mouse.scrollLoop_succ, if_neg hne, hmin, hdata, hnext,
      Mouse.scrollLoop_zero]

/-- Witness for the amended C9: scrolling by -3 from (10, 20) injects three
wheel events whose data reads back as -1, each followed by a sleep; scrolling
by `i32::MIN` injects the single wrapped event; an out-of-bounds state fails
with `OutOfBounds` and an empty trace. -/
theorem c9_scroll_with_delay_unit_steps_witness :
    Mouse.scroll_with_delay ⟨⟨10, 20⟩, EventEmitter.new⟩ ⟨1920, 1080⟩ (-3)
      = ⟨.ok (), ⟨⟨10, 20⟩, EventEmitter.new⟩,
          [.mouseEvent .wheel 10 20 4294967295, .sleep,
           .mouseEvent .wheel 10 20 4294967295, .sleep,
           .mouseEvent .wheel 10 20 4294967295, .sleep]⟩
    ∧ Mouse.scroll_with_delay ⟨⟨10, 20⟩, EventEmitter.new⟩ ⟨1920, 1080⟩
        (-(2 ^ 31))
      = ⟨.ok (), ⟨⟨10, 20⟩, EventEmitter.new⟩,
          [.mouseEvent .wheel 10 20 2147483648, .sleep]⟩
    ∧ Mouse.scroll_with_delay ⟨⟨-1, 20⟩, EventEmitter.new⟩ ⟨1920, 1080⟩ 5
      = ⟨.error .OutOfBounds, ⟨⟨-1, 20⟩, EventEmitter.new⟩, []⟩ := by
  refine ⟨?_, ?_, ?_⟩
  · have h := (c9_scroll_with_delay_unit_steps ⟨⟨10, 20⟩, EventEmitter.new⟩
      ⟨1920, 1080⟩ (-3)).2.1 (by decide) (by decide) (by decide)
    rw [h]
    decide
  · exact (c9_scroll_with_delay_unit_steps ⟨⟨10, 20⟩, EventEmitter.new⟩
      ⟨1920, 1080⟩ (-(2 ^ 31))).2.2.2 (by decide) rfl
  · exact (c9_scroll_with_delay_unit_steps ⟨⟨-1, 20⟩, EventEmitter.new⟩
      ⟨1920, 1080⟩ 5).1 (by decide)

namespace Mouse

/-- The body of `Mouse::hover`'s timing loop, with the wall-clock/f64
machinery externalised: the source samples `Instant::now()` roughly every 10ms
and computes an interpolated integer point `(current_x, current_y)` by f64
arithmetic; neither real time nor the f64 rounding is embeddable, so the
sequence of sampled points enters as the oracle list `path`. Each sample is
passed to `move_to` (whose error aborts the loop via `?`), followed by the
10ms `thread::sleep`. -/
def movePath (b : ScreenBounds) : Mouse → List Effect → List (Int × Int) →
    StepResult
  | m, eff, [] => ⟨.ok (), m, eff⟩
  | m, eff, (px, py) :: rest =>
    let r := move_to m b px py
    match r.res with
    | .error e => ⟨.error e, r.state, eff ++ r.effects⟩
    | .ok () => movePath b r.state (eff ++ r.effects ++ [.sleep]) rest

/-- The part of `Mouse::hover` after its validation prefix: run the timing
loop over the sampled points, then one final exact `move_to(x, y)`. -/
def hoverRun (m : Mouse) (b : ScreenBounds) (x y : Int)
    (path : List (Int × Int)) : StepResult :=
  let r := movePath b m [] path
  match r.res with
  | .error _ => r
  | .ok () =>
    let f := move_to r.state b x y
    ⟨f.res, f.state, r.effects ++ f.effects⟩

/-- `Mouse::hover` — the `Duration` argument is embedded as its total
nanosecond count, so `duration.as_secs()` is `durationNanos / 1000000000`; the
source's validation rejects `x < 0 || y < 0 || duration.as_secs() == 0` as
`InvalidInput` (note: this is the whole-seconds count, so every duration
shorter than one second is rejected, not only the zero-length one), then
rejects an out-of-bounds target, then runs the timing loop (`path` is the
oracle for its wall-clock samples, see `movePath`) and a final exact
`move_to`. -/
def hover (m : Mouse) (b : ScreenBounds) (x y : Int) (durationNanos : Nat)
    (path : List (Int × Int)) : StepResult :=
  if x < 0 || y < 0 || durationNanos / 1000000000 == 0 then
    ⟨.error .InvalidInput, m, []⟩
  else
    let new_position := MousePosition.new x y
    if new_position.is_out_of_bounds b then
      ⟨.error .OutOfBounds, m, []⟩
    else
      hoverRun m b x y path

theorem hover_invalid (m : Mouse) (b : ScreenBounds) {x y : Int}
    {durationNanos : Nat} (path : List (Int × Int))
    (h : x < 0 ∨ y < 0 ∨ durationNanos / 1000000000 = 0) :
    hover m b x y durationNanos path = ⟨.error .InvalidInput, m, []⟩ := by
  rcases h with h | h | h <;> simp [hover, h]

theorem hover_oob (m : Mouse) (b : ScreenBounds) {x y : Int}
    {durationNanos : Nat} (path : List (Int × Int)) (hx : 0 ≤ x) (hy : 0 ≤ y)
    (hns : durationNanos / 1000000000 ≠ 0)
    (hob : MousePosition.is_out_of_bounds ⟨x, y⟩ b = true) :
    hover m b x y durationNanos path = ⟨.error .OutOfBounds, m, []⟩ := by
  simp [hover, MousePosition.new, not_lt.mpr hx, not_lt.mpr hy, hns, hob]

theorem hover_valid (m : Mouse) (b : ScreenBounds) {x y : Int}
    {durationNanos : Nat} (path : List (Int × Int)) (hx : 0 ≤ x) (hy : 0 ≤ y)
    (hns : durationNanos / 1000000000 ≠ 0)
    (hob : MousePosition.is_out_of_bounds ⟨x, y⟩ b = false) :
    hover m b x y durationNanos path = hoverRun m b x y path := by
  simp [hover, MousePosition.new, not_lt.mpr hx, not_lt.mpr hy, hns, hob]

theorem move_to_res_not_invalid (m : Mouse) (b : ScreenBounds) {x y : Int}
    (hx : 0 ≤ x) (hy : 0 ≤ y) :
    (move_to m b x y).res ≠ .error .InvalidInput := by
  by_cases hob : MousePosition.is_out_of_bounds ⟨x, y⟩ b = true
  · rw [move_to_oob m b hx hy hob]
    simp
  · rw [Bool.not_eq_true] at hob
    rw [move_to_ok m b hob]
    simp

theorem movePath_res_not_invalid (b : ScreenBounds)
    (path : List (Int × Int)) (h : ∀ p ∈ path, 0 ≤ p.1 ∧ 0 ≤ p.2) :
    ∀ (m : Mouse) (eff : List Effect),
      (movePath b m eff path).res ≠ .error .InvalidInput := by
  induction path with
  | nil =>
    intro m eff
    simp [movePath]
  | cons hd tl ih =>
    intro m eff
    obtain ⟨hhd, htl⟩ := List.forall_mem_cons.mp h
    rcases hd with ⟨px, py⟩
    rcases hr : (move_to m b px py).res with e | u
    · simp only [movePath, hr]
      intro hc
      have : e = MouseError.InvalidInput := by
        injection hc
      subst this
      exact move_to_res_not_invalid m b hhd.1 hhd.2 hr
    · simp only [movePath, hr]
      exact ih htl _ _

theorem hoverRun_res_not_invalid (m : Mouse) (b : ScreenBounds) {x y : Int}
    (path : List (Int × Int)) (hx : 0 ≤ x) (hy : 0 ≤ y)
    (h : ∀ p ∈ path, 0 ≤ p.1 ∧ 0 ≤ p.2) :
    (hoverRun m b x y path).res ≠ .error .InvalidInput := by
  unfold hoverRun
  rcases hr : (movePath b m [] path).res with e | u
  · simpa [hr] using movePath_res_not_invalid b path h m []
  · simp only [hr]
    exact move_to_res_not_invalid _ b hx hy

end Mouse

/-- Counterexample for C5 as stated: at the in-bounds target (10, 10) with the
nonzero-length duration of 500 milliseconds (500000000 ns), `hover` returns
`InvalidInput`, because the source checks `duration.as_secs() == 0`, which is
true for every duration shorter than one full second, not only for the
zero-length one. -/
theorem c5_hover_subsecond_counterexample :
    (Mouse.hover ⟨⟨0, 0⟩, EventEmitter.new⟩ ⟨1920, 1080⟩ 10 10 500000000
      []).res = .error .InvalidInput
    ∧ (500000000 : Nat) ≠ 0
    ∧ (0 : Int) ≤ 10 := by
  refine ⟨?_, by decide, by decide⟩
  decide

/-- Claim C5 (amended): `hover(x, y, duration)` fails with `InvalidInput`
whenever `x < 0`, `y < 0` or `duration.as_secs() == 0` — i.e. every duration
shorter than one full second is rejected, not only the zero-length one — with
the state untouched; with a non-negative target, a duration of at least one
second, and non-negative loop samples it never returns `InvalidInput`; and an
out-of-bounds target (with otherwise valid inputs) fails with `OutOfBounds`. -/
theorem c5_hover_validation (m : Mouse) (b : ScreenBounds) (x y : Int)
    (durationNanos : Nat) (path : List (Int × Int)) :
    ((x < 0 ∨ y < 0 ∨ durationNanos / 1000000000 = 0) →
      Mouse.hover m b x y durationNanos path =
        ⟨.error .InvalidInput, m, []⟩)
    ∧ (0 ≤ x → 0 ≤ y → durationNanos / 1000000000 ≠ 0 →
        MousePosition.is_out_of_bounds ⟨x, y⟩ b = true →
      Mouse.hover m b x y durationNanos path =
        ⟨.error .OutOfBounds, m, []⟩)
    ∧ (0 ≤ x → 0 ≤ y → durationNanos / 1000000000 ≠ 0 →
        (∀ p ∈ path, 0 ≤ p.1 ∧ 0 ≤ p.2) →
      (Mouse.hover m b x y durationNanos path).res ≠
        .error .InvalidInput) := by
  refine ⟨fun h => Mouse.hover_invalid m b path h,
    fun hx hy hns hob => Mouse.hover_oob m b path hx hy hns hob,
    fun hx hy hns hpath => ?_⟩
  by_cases hob : MousePosition.is_out_of_bounds ⟨x, y⟩ b = true
  · rw [Mouse.hover_oob m b path hx hy hns hob]
    simp
  · rw [Bool.not_eq_true] at hob
    rw [Mouse.hover_valid m b path hx hy hns hob]
    exact Mouse.hoverRun_res_not_invalid m b path hx hy hpath

/-- Witness for the amended C5: a negative x is rejected as `InvalidInput`; an
out-of-bounds target with a two-second duration is rejected as `OutOfBounds`;
a valid call with one non-negative sample does not return `InvalidInput`. -/
theorem c5_hover_validation_witness :
    Mouse.hover ⟨⟨0, 0⟩, EventEmitter.new⟩ ⟨1920, 1080⟩ (-1) 5 2000000000 []
      = ⟨.error .InvalidInput, ⟨⟨0, 0⟩, EventEmitter.new⟩, []⟩
    ∧ Mouse.hover ⟨⟨0, 0⟩, EventEmitter.new⟩ ⟨1920, 1080⟩ 5000 5000
        2000000000 []
      = ⟨.error .OutOfBounds, ⟨⟨0, 0⟩, EventEmitter.new⟩, []⟩
    ∧ (Mouse.hover ⟨⟨0, 0⟩, EventEmitter.new⟩ ⟨1920, 1080⟩ 10 10 2000000000
        [(5, 5)]).res ≠ .error .InvalidInput := by
  refine ⟨?_, ?_, ?_⟩
  · exact (c5_hover_validation ⟨⟨0, 0⟩, EventEmitter.new⟩ ⟨1920, 1080⟩
      (-1) 5 2000000000 []).1 (Or.inl (by decide))
  · exact (c5_hover_validation ⟨⟨0, 0⟩, EventEmitter.new⟩ ⟨1920, 1080⟩
      5000 5000 2000000000 []).2.1 (by decide) (by decide) (by decide)
      (by decide)
  · exact (c5_hover_validation ⟨⟨0, 0⟩, EventEmitter.new⟩ ⟨1920, 1080⟩
      10 10 2000000000 [(5, 5)]).2.2 (by decide) (by decide) (by decide)
      (by decide)
